import Mathlib

/-!
Verification development for the SoulVerse repository.

The repository contains a server-side audio-mixing endpoint (a Next.js API
handler using formidable + fluent-ffmpeg) and a React application
(`App.tsx`) that generates a poem, synthesizes narration, optionally mixes
it with a background track, and plays it back with per-line highlighting.

This file shallowly embeds the mixing handler and the playback logic as
pure Lean functions.  External effects (multipart parsing, the filesystem,
the ffmpeg process, the outgoing stream) are supplied by an explicit
environment record, and every side effect the handler performs is recorded
in an explicit trace, so that properties about status codes, headers,
ffmpeg configuration, scratch-file lifecycle and cleanup are provable.
-/

/-! ## Mixing endpoint (pages/api/mix handler) -/

/-- A parsed uploaded file as produced by formidable: the temporary path the
upload was written to and its size in bytes. -/
structure UploadedFile where
  filepath : String
  size : Nat
  deriving DecidableEq

/-- The parsed mixing request: HTTP method, the first file of the
`voice_audio` multipart field (if any), and the first value of the
`musicChoice` field (if any). -/
structure MixRequest where
  method : String
  voiceAudioFile : Option UploadedFile
  musicChoice : Option String
  deriving DecidableEq

/-- The fixed mapping from music-choice keys to background-track paths
(`MUSIC_FILES` in the handler module); `process.cwd()` is modelled as the
repository root, so the paths are kept relative. -/
def MUSIC_FILES : List (String × String) :=
  [("ambient", "public/audio/ambient_background.mp3"),
   ("orchestral", "public/audio/orchestral_background.mp3")]

/-- The keys an object literal inherits from `Object.prototype` in
JavaScript.  `MUSIC_FILES` is a plain object literal, so property access
`MUSIC_FILES[k]` for any of these keys yields an inherited value (a
function, or for `__proto__` the prototype object) that is truthy but is
not one of the configured background-track paths. -/
def protoKeys : List String :=
  ["constructor", "hasOwnProperty", "isPrototypeOf", "propertyIsEnumerable",
   "toLocaleString", "toString", "valueOf", "__proto__", "__defineGetter__",
   "__defineSetter__", "__lookupGetter__", "__lookupSetter__"]

/-- The value of a JavaScript property access on the music table: an own
key yields the configured path string; a key inherited from
`Object.prototype` yields a truthy non-path value; any other key is
undefined (falsy). -/
inductive JsProp where
  | file (path : String)
  | inherited
  | undef
  deriving DecidableEq

/-- `MUSIC_FILES[k]` with JavaScript property-access semantics, including
the prototype chain of the object literal. -/
def musicFilesAccess (k : String) : JsProp :=
  match (MUSIC_FILES.find? (fun p => p.1 == k)).map (fun p => p.2) with
  | some path => JsProp.file path
  | none => if k ∈ protoKeys then JsProp.inherited else JsProp.undef

/-- The own-key lookup on the music table: the background-track path the
handler can actually use.  `musicLookup mc = some p` exactly when the
music choice is present, non-empty (truthy) and an own key of
`MUSIC_FILES`; note that the program's validation test
`!musicChoice || !MUSIC_FILES[musicChoice]` also lets prototype-inherited
keys through (see `musicFilesAccess`), for which no path exists. -/
def musicLookup (mc : Option String) : Option String :=
  match mc with
  | none => none
  | some k => if k = "" then none else (MUSIC_FILES.find? (fun p => p.1 == k)).map (fun p => p.2)

/-- The configuration handed to one fluent-ffmpeg invocation: the two
inputs, the complex filter graph, the output options and the save target. -/
structure FfmpegConfig where
  input1 : String
  input2 : String
  complexFilter : List String
  outputOptions : List String
  output : String
  deriving DecidableEq

/-- The filter graph from the handler: attenuate the second (music) input
to 0.25 of its amplitude, then amix both with duration pinned to the
first input. -/
def ffmpegComplexFilter : List String :=
  ["[1:a]volume=0.25[music_vol]",
   "[0:a][music_vol]amix=inputs=2:duration=first:dropout_transition=2[aout]"]

/-- The output options from the handler: map the filter output, encode
with libmp3lame at quality 2. -/
def ffmpegOutputOptions : List String :=
  ["-map [aout]", "-c:a libmp3lame", "-q:a 2"]

/-- Outcome of one ffmpeg invocation: on success the bytes written to the
output file, otherwise the tool error message. -/
inductive FfmpegResult where
  | success (bytes : List Nat)
  | failure (msg : String)
  deriving DecidableEq

/-- The environment oracle for one request: results of the external
operations the handler awaits.  `unlinkFail p` injects a deletion failure
code for path `p` (when the file exists); `none` means deletion succeeds. -/
structure Env where
  parseOk : Bool
  musicFileReadable : Bool
  mkdirOk : Bool
  suffixV : String
  suffixM : String
  renameOk : Bool
  ffmpegResult : FfmpegResult
  streamEnds : Bool
  unlinkFail : String → Option String

/-- The body of the HTTP response: either a JSON error object or the byte
stream of the produced file. -/
inductive ResponseBody where
  | json (error : String)
  | stream (bytes : List Nat)
  deriving DecidableEq

/-- The HTTP response the handler produces. -/
structure HttpResponse where
  status : Nat
  headers : List (String × String)
  body : ResponseBody
  deriving DecidableEq

/-- Look up a response header by name. -/
def getHeader (r : HttpResponse) (k : String) : Option String :=
  (r.headers.find? (fun p => p.1 == k)).map (fun p => p.2)

/-- The side-effect trace of one request: the files currently existing (of
those the handler touches), the scratch paths assigned during the request,
every ffmpeg invocation, every `fs.unlink` attempt, and every logged
cleanup warning. -/
structure Trace where
  fs : List String
  assigned : List String
  ffmpegCalls : List FfmpegConfig
  unlinkAttempts : List String
  warns : List String
  deriving DecidableEq

/-- Files existing when the handler starts: the formidable upload
temporary, when a voice part was uploaded. -/
def initFs (req : MixRequest) : List String :=
  match req.voiceAudioFile with
  | some f => [f.filepath]
  | none => []

/-- The initial (empty) trace for a request. -/
def initTrace (req : MixRequest) : Trace :=
  { fs := initFs req, assigned := [], ffmpegCalls := [], unlinkAttempts := [], warns := [] }

/-- One guarded deletion, `fs.unlink(p).catch(e => e.code !== 'ENOENT' &&
console.warn(w + e.message))`: the attempt is always recorded; an absent
file yields ENOENT which the short-circuit swallows silently; an injected
failure with any other code only logs a warning; otherwise the file is
removed.  The catch never rethrows, so the surrounding code never sees an
error. -/
def safeUnlink (env : Env) (t : Trace) (p : String) (w : String) : Trace :=
  if p ∈ t.fs then
    match env.unlinkFail p with
    | some code =>
        if code = "ENOENT" then
          { t with unlinkAttempts := t.unlinkAttempts ++ [p] }
        else
          { t with unlinkAttempts := t.unlinkAttempts ++ [p],
                   warns := t.warns ++ [w ++ code] }
    | none =>
        { t with unlinkAttempts := t.unlinkAttempts ++ [p], fs := t.fs.erase p }
  else { t with unlinkAttempts := t.unlinkAttempts ++ [p] }

/-- Exit of the handler's try block: an early `return res...` (or normal
completion with the response already streamed), or a thrown error caught
by the catch block. -/
inductive TryExit where
  | ret (r : HttpResponse)
  | err (msg : String)
  deriving DecidableEq

def tempDirPath : String := "tmp"

def voiceRequiredMsg : String := "Voice audio file is required for mixing."

def melodyChoiceMsg : String :=
  "The harmony awaits. Please choose a background melody to accompany your verse."

def melodyLostMsg : String :=
  "The chosen melody is lost in the mists. Background music file not found on the server."

def blendFailMsg : String :=
  "The blend was lost in the ether. Failed to weave voice and music into one tapestry."

def voiceWarnMsg : String := "Failed to clean up voice temp file: "

def mixedWarnMsg : String := "Failed to clean up mixed temp file: "

def voiceWarnFinallyMsg : String := "Failed to clean up voice temp file in finally: "

def mixedWarnFinallyMsg : String := "Failed to clean up mixed temp file in finally: "

/-- The try block of the mix handler (part_001 lines 72-156): multipart
parse, validation of the voice part and the music choice, music-file
readability check, scratch-path assignment, move of the upload, the single
ffmpeg invocation, and streaming of the result with post-stream cleanup on
stream end.  Returns the exit, the trace, and the values of
`voiceFilePath` and `mixedFilePath` at exit (read by the finally block). -/
def tryBody (req : MixRequest) (env : Env) (t : Trace) :
    TryExit × Trace × String × String :=
  if env.parseOk then
    match req.voiceAudioFile with
    | none =>
      (TryExit.ret { status := 400, headers := [], body := ResponseBody.json voiceRequiredMsg },
       t, "", "")
    | some voiceUpload =>
      match req.musicChoice with
      | none =>
        (TryExit.ret { status := 400, headers := [], body := ResponseBody.json melodyChoiceMsg },
         t, "", "")
      | some musicChoice =>
        if musicChoice = "" then
          (TryExit.ret { status := 400, headers := [], body := ResponseBody.json melodyChoiceMsg },
           t, "", "")
        else
        match musicFilesAccess musicChoice with
        | JsProp.undef =>
          (TryExit.ret { status := 400, headers := [], body := ResponseBody.json melodyChoiceMsg },
           t, "", "")
        | JsProp.inherited =>
          (TryExit.ret { status := 500, headers := [], body := ResponseBody.json melodyLostMsg },
           t, "", "")
        | JsProp.file musicSourceFilePath =>
        if env.musicFileReadable then
          if env.mkdirOk then
            let voiceFilePath := tempDirPath ++ "/voice-" ++ env.suffixV ++ ".mp3"
            let mixedFilePath := tempDirPath ++ "/final_mix-" ++ env.suffixM ++ ".mp3"
            let t1 : Trace := { t with assigned := t.assigned ++ [voiceFilePath, mixedFilePath] }
            if env.renameOk then
              let t2 : Trace :=
                { t1 with fs := (t1.fs.erase voiceUpload.filepath) ++ [voiceFilePath] }
              let cfg : FfmpegConfig :=
                { input1 := voiceFilePath, input2 := musicSourceFilePath,
                  complexFilter := ffmpegComplexFilter,
                  outputOptions := ffmpegOutputOptions,
                  output := mixedFilePath }
              let t3 : Trace := { t2 with ffmpegCalls := t2.ffmpegCalls ++ [cfg] }
              match env.ffmpegResult with
              | FfmpegResult.failure _ =>
                (TryExit.err blendFailMsg, t3, voiceFilePath, mixedFilePath)
              | FfmpegResult.success bytes =>
                let t4 : Trace := { t3 with fs := t3.fs ++ [mixedFilePath] }
                let resp : HttpResponse :=
                  { status := 200,
                    headers :=
                      [("Content-Type", "audio/mpeg"),
                       ("Content-Length", toString bytes.length),
                       ("Content-Disposition", "inline; filename=\"final_mix.mp3\"")],
                    body := ResponseBody.stream bytes }
                let t5 : Trace :=
                  if env.streamEnds then
                    safeUnlink env (safeUnlink env t4 voiceFilePath voiceWarnMsg)
                      mixedFilePath mixedWarnMsg
                  else t4
                (TryExit.ret resp, t5, voiceFilePath, mixedFilePath)
            else (TryExit.err "rename failed", t1, voiceFilePath, mixedFilePath)
          else (TryExit.err "mkdir failed", t, "", "")
        else
          (TryExit.ret { status := 500, headers := [], body := ResponseBody.json melodyLostMsg },
           t, "", "")
  else (TryExit.err "parse error", t, "", "")

/-- The mix handler (part_001 lines 63-170): method check, then the try
block, then the catch (a thrown error becomes a 500 JSON response, headers
not having been sent on any thrown path), then the finally block, which
always attempts deletion of both scratch paths. -/
def handler (req : MixRequest) (env : Env) : HttpResponse × Trace :=
  if req.method = "POST" then
    let r := tryBody req env (initTrace req)
    let resp : HttpResponse :=
      match r.1 with
      | TryExit.ret rsp => rsp
      | TryExit.err msg => { status := 500, headers := [], body := ResponseBody.json msg }
    let t1 := safeUnlink env r.2.1 r.2.2.1 voiceWarnFinallyMsg
    let t2 := safeUnlink env t1 r.2.2.2 mixedWarnFinallyMsg
    (resp, t2)
  else
    ({ status := 405, headers := [], body := ResponseBody.json "Method Not Allowed" },
     initTrace req)

/-! ## Playback timing (App.tsx playAudio, lines 127-180) -/

/-- JavaScript `String.prototype.split(sep)` on a single separator
character, at the character-list level: splitting the empty text yields
one empty piece, and every separator occurrence starts a new piece. -/
def splitCharsOn (sep : Char) (cs : List Char) : List (List Char) :=
  match cs with
  | [] => [[]]
  | c :: rest =>
    let r := splitCharsOn sep rest
    if c = sep then [] :: r
    else
      match r with
      | [] => [[c]]
      | h :: t => (c :: h) :: t

/-- JavaScript `String.prototype.trim()`: drop leading and trailing
whitespace. -/
def jsTrim (s : String) : String :=
  { data := ((s.data.dropWhile Char.isWhitespace).reverse.dropWhile Char.isWhitespace).reverse }

/-- How poem lines are built from the generated poem text in
`setAudioAndSyncData` (App.tsx line 112): split on newlines, drop the
lines that are empty after trimming. -/
def mkPoemLines (poem : String) : List String :=
  ((splitCharsOn '\n' poem.data).map (fun cs => { data := cs : String })).filter
    (fun line => jsTrim line ≠ "")

/-- `poemLines.reduce((sum, line) => sum + line.length, 0)` (line 155). -/
def totalChars (lines : List String) : Nat :=
  lines.foldl (fun s line => s + line.length) 0

/-- The per-line durations pushed in the forEach at lines 158-160:
`totalDuration * (line.length / totalChars)` for each line, in order.
Durations are in seconds, over the rationals. -/
def lineAllotments (lines : List String) (D : ℚ) : List ℚ :=
  lines.map (fun line => D * ((line.length : ℚ) / (totalChars lines : ℚ)))

/-- A scheduled highlight update: set the current line index to `i`, or
clear it (set it to -1). -/
inductive HighlightEvent where
  | highlight (i : Nat)
  | clear
  deriving DecidableEq

/-- The schedule `playAudio` builds when `poemLines` is non-empty (lines
162-176): one callback per line at the cumulative time of the preceding
lines' allotted durations, starting the accumulator at 0. -/
def scheduleFrom (ds : List ℚ) (c : ℚ) (i : Nat) : List (ℚ × HighlightEvent) :=
  match ds with
  | [] => []
  | d :: rest => (c, HighlightEvent.highlight i) :: scheduleFrom rest (c + d) (i + 1)

/-- The full schedule `playAudio` creates for a non-empty line list: the
per-line highlight callbacks followed by the final clearing callback at
the total audio duration (lines 172-176).  Empty line list: no schedule. -/
def playAudioSchedule (lines : List String) (D : ℚ) : List (ℚ × HighlightEvent) :=
  if lines.length > 0 then
    scheduleFrom (lineAllotments lines D) 0 0 ++ [(D, HighlightEvent.clear)]
  else []

/-! ## Timer/source semantics (App.tsx lines 80-180) -/

/-- A pending `setTimeout` callback: its timer id, its scheduled fire time
(seconds), and the highlight update its callback would perform. -/
structure TimerTask where
  id : Nat
  time : ℚ
  event : HighlightEvent
  deriving DecidableEq

/-- The playback-relevant React/browser state: the current audio source
(if any), the highlighted line index, the single timer ref
(`lineTimerRef`, which only ever holds the id of the most recently
scheduled timer), the pending timers, and id counters. -/
structure PlayerState where
  audioSource : Option Nat
  currentLineIndex : Int
  lineTimerRef : Option Nat
  pending : List TimerTask
  nextTimerId : Nat
  nextSourceId : Nat
  isPlaying : Bool
  deriving DecidableEq

/-- `clearLineTimers` (lines 80-85): clearTimeout on the single stored
timer id, if any, then null the ref. -/
def clearLineTimers (s : PlayerState) : PlayerState :=
  match s.lineTimerRef with
  | some tid =>
    { s with pending := s.pending.filter (fun t => t.id ≠ tid), lineTimerRef := none }
  | none => s

/-- `stopAudio` (lines 87-97): stop and drop the source, clear the stored
timer, mark not playing, reset the highlighted line index to -1. -/
def stopAudioStep (s : PlayerState) : PlayerState :=
  let s1 :=
    match s.audioSource with
    | some _ => { s with audioSource := none }
    | none => s
  let s2 := clearLineTimers s1
  { s2 with isPlaying := false, currentLineIndex := -1 }

/-- Scheduling of the callbacks in `playAudio`: each `setTimeout`
allocates a fresh timer id, appends the task, and overwrites
`lineTimerRef` with that id (lines 164 and 172 assign to the same ref). -/
def scheduleTasks (evs : List (ℚ × HighlightEvent)) (s : PlayerState) : PlayerState :=
  evs.foldl
    (fun st te =>
      { st with
        pending := st.pending ++ [{ id := st.nextTimerId, time := te.1, event := te.2 }],
        lineTimerRef := some st.nextTimerId,
        nextTimerId := st.nextTimerId + 1 })
    s

/-- `playAudio` (lines 127-180) restricted to its player-state effects:
stop current playback, start a fresh source, then (for non-empty
`poemLines`) clear the stored timer and schedule the highlight callbacks;
for empty `poemLines` just reset the highlight. -/
def playAudioStep (lines : List String) (D : ℚ) (s : PlayerState) : PlayerState :=
  let s1 := stopAudioStep s
  let s2 := { s1 with audioSource := some s1.nextSourceId,
                      nextSourceId := s1.nextSourceId + 1,
                      isPlaying := true }
  if lines.length > 0 then
    scheduleTasks (playAudioSchedule lines D) (clearLineTimers s2)
  else { s2 with currentLineIndex := -1 }

/-- A pending timer fires: the task is removed from the pending set and
its callback runs; the callback only updates the highlighted line index
when an audio source is active (the `if (audioSourceRef.current)` guards
at lines 165 and 173). -/
def fireTimer (tid : Nat) (s : PlayerState) : PlayerState :=
  match s.pending.find? (fun t => t.id == tid) with
  | none => s
  | some task =>
    let s1 := { s with pending := s.pending.filter (fun t => t.id ≠ tid) }
    match s1.audioSource with
    | some _ =>
      { s1 with currentLineIndex :=
          match task.event with
          | HighlightEvent.highlight i => (i : Int)
          | HighlightEvent.clear => -1 }
    | none => s1

/-- The playback side of a music switch in `handleMusicChange`: stop
immediately (line 210), then — after the mixing round-trip — play the new
buffer (line 259). -/
def musicSwitchPlayback (lines : List String) (D : ℚ) (s : PlayerState) : PlayerState :=
  playAudioStep lines D (stopAudioStep s)

/-- The player state before any playback. -/
def initPlayer : PlayerState :=
  { audioSource := none, currentLineIndex := -1, lineTimerRef := none,
    pending := [], nextTimerId := 0, nextSourceId := 0, isPlaying := false }

/-! ## Application audio state (App.tsx lines 109-124 and 199-273) -/

/-- Which kind of audio `setAudioAndSyncData` is installing. -/
inductive BufKind where
  | speechOnly
  | mixed
  deriving DecidableEq

/-- The React state touched by `setAudioAndSyncData` and
`handleMusicChange`.  Decoded audio buffers and raw MP3 buffers are
abstracted to identifiers. -/
structure AppState where
  musicChoice : String
  speechOnlyDecodedBuffer : Option Nat
  speechOnlyRawMp3Buffer : Option Nat
  mixedDecodedBuffer : Option Nat
  mixedRawMp3Buffer : Option Nat
  currentPlaybackAudioBuffer : Option Nat
  currentDownloadMp3Buffer : Option Nat
  isMixedAudioPlaying : Bool
  errorMessage : String
  isMixing : Bool
  generatedPoem : String
  poemLines : List String
  deriving DecidableEq

/-- `setAudioAndSyncData` (App.tsx lines 109-124): install the playback
and download buffers, rebuild `poemLines` from the generated poem, and
record the buffers under their kind; installing speech-only audio clears
the mixed buffers and the mixed-playing flag. -/
def setAudioAndSyncData (decoded raw : Nat) (kind : BufKind) (s : AppState) : AppState :=
  let s1 := { s with currentPlaybackAudioBuffer := some decoded,
                     currentDownloadMp3Buffer := some raw,
                     poemLines := mkPoemLines s.generatedPoem }
  match kind with
  | BufKind.speechOnly =>
    { s1 with speechOnlyDecodedBuffer := some decoded,
              speechOnlyRawMp3Buffer := some raw,
              mixedDecodedBuffer := none,
              mixedRawMp3Buffer := none,
              isMixedAudioPlaying := false }
  | BufKind.mixed =>
    { s1 with mixedDecodedBuffer := some decoded,
              mixedRawMp3Buffer := some raw,
              isMixedAudioPlaying := true }

/-- Outcome of the mixing round-trip in `handleMusicChange`: the fetch can
fail at the network level, return a non-OK status, the returned bytes can
fail to decode, or everything succeeds and yields the decoded and raw
mixed buffers. -/
inductive MixOutcome where
  | networkError (msg : String)
  | httpError (msg : String)
  | decodeError (msg : String)
  | ok (decoded raw : Nat)
  deriving DecidableEq

/-- Whether the mixing round-trip failed. -/
def MixOutcome.isFailure : MixOutcome → Bool
  | MixOutcome.ok _ _ => false
  | _ => true

/-- The environment for one `handleMusicChange` invocation: whether the
audio context is initialized, the result of regenerating speech when no
raw speech buffer is stored (`none` models a `generateSpeech` failure),
the result of decoding regenerated speech, and the mixing outcome. -/
structure MixChangeEnv where
  audioCtxReady : Bool
  genSpeech : Option Nat
  genDecode : Option Nat
  mixOutcome : MixOutcome

/-- The fetch/decode stage of the mixing branch (App.tsx lines 244-259):
on success install the mixed buffers; on any failure the error propagates
to the catch block (returned as `some msg`). -/
def mixFetchStep (env : MixChangeEnv) (st : AppState) : AppState × Option String :=
  match env.mixOutcome with
  | MixOutcome.networkError m => (st, some m)
  | MixOutcome.httpError m => (st, some m)
  | MixOutcome.decodeError m => (st, some m)
  | MixOutcome.ok d r => (setAudioAndSyncData d r BufKind.mixed st, none)

/-- `handleMusicChange` (App.tsx lines 199-273) restricted to its
state effects.  React closure semantics: reads of `speechOnly*` inside
the function and inside the catch block use the values captured at
invocation time (the argument `s`), while writes accumulate into the
produced state.  The catch block records the error message, reverts
`musicChoice` to "none" and, when the captured speech-only buffers both
exist, reinstalls the speech-only audio; the finally block clears the
mixing flag. -/
def handleMusicChange (env : MixChangeEnv) (newChoice : String) (s : AppState) : AppState :=
  if s.generatedPoem = "" then
    { s with errorMessage :=
        "A voice unheard. Generate your poem narration before seeking its symphony." }
  else if env.audioCtxReady = false then
    { s with errorMessage := "Audio context not initialized. Please interact with the page first." }
  else if s.musicChoice = newChoice then s
  else
    let s1 := { s with errorMessage := "", musicChoice := newChoice, isMixing := true }
    let tryRes : AppState × Option String :=
      if newChoice = "none" then
        match s.speechOnlyDecodedBuffer, s.speechOnlyRawMp3Buffer with
        | some d, some r => (setAudioAndSyncData d r BufKind.speechOnly s1, none)
        | _, _ =>
          match env.genSpeech with
          | none => (s1, some "Failed to regenerate speech for none music.")
          | some raw =>
            match env.genDecode with
            | none => (s1, some "decode failed")
            | some dec => (setAudioAndSyncData dec raw BufKind.speechOnly s1, none)
      else
        match s.speechOnlyRawMp3Buffer with
        | some _ => mixFetchStep env s1
        | none =>
          match env.genSpeech with
          | none => (s1, some "Could not retrieve MP3 speech audio for mixing.")
          | some v => mixFetchStep env { s1 with speechOnlyRawMp3Buffer := some v }
    let s2 :=
      match tryRes with
      | (st, none) => st
      | (st, some m) =>
        let st1 := { st with errorMessage := m, musicChoice := "none" }
        match s.speechOnlyDecodedBuffer, s.speechOnlyRawMp3Buffer with
        | some d, some r => setAudioAndSyncData d r BufKind.speechOnly st1
        | _, _ => st1
    { s2 with isMixing := false }

/-! ## Helper lemmas -/

theorem totalChars_eq_sum (lines : List String) :
    totalChars lines = (lines.map String.length).sum := by
  have h : ∀ (L : List String) (n : Nat),
      L.foldl (fun s line => s + line.length) n = n + (L.map String.length).sum := by
    intro L
    induction L with
    | nil => intro n; simp
    | cons x xs ih => intro n; simp [List.foldl, ih]; omega
  simpa [totalChars] using h lines 0

theorem mkPoemLines_length_pos (poem : String) :
    ∀ line ∈ mkPoemLines poem, 1 ≤ line.length := by
  intro line hline
  have hne : jsTrim line ≠ "" := by
    have := List.mem_filter.mp hline
    simpa using this.2
  have hne' : line ≠ "" := by
    intro hc
    apply hne
    rw [hc]
    rfl
  rcases line with ⟨data⟩
  rcases data with _ | ⟨a, l⟩
  · exact absurd rfl hne'
  · simp [String.length]

theorem totalChars_pos (lines : List String)
    (hall : ∀ line ∈ lines, 1 ≤ line.length) (hne : lines ≠ []) :
    1 ≤ totalChars lines := by
  rcases lines with _ | ⟨x, xs⟩
  · exact absurd rfl hne
  · have hx : 1 ≤ x.length := hall x (by simp)
    have : totalChars (x :: xs) = x.length + (xs.map String.length).sum := by
      simp [totalChars_eq_sum]
    omega

theorem lineAllotments_sum (lines : List String) (D : ℚ)
    (h : (totalChars lines : ℚ) ≠ 0) :
    (lineAllotments lines D).sum = D := by
  have key : ∀ (L : List String),
      (L.map fun line => D * ((line.length : ℚ) / (totalChars lines : ℚ))).sum =
        D * ((((L.map String.length).sum : Nat) : ℚ) / (totalChars lines : ℚ)) := by
    intro L
    induction L with
    | nil => simp
    | cons x xs ih =>
      simp only [List.map_cons, List.sum_cons, ih, Nat.cast_add]
      ring
  unfold lineAllotments
  rw [key lines, ← totalChars_eq_sum, div_self h, mul_one]

theorem scheduleFrom_length (ds : List ℚ) (c : ℚ) (i : Nat) :
    (scheduleFrom ds c i).length = ds.length := by
  induction ds generalizing c i with
  | nil => simp [scheduleFrom]
  | cons d rest ih => simp [scheduleFrom, ih]

theorem scheduleFrom_getElem? (ds : List ℚ) (c : ℚ) (i j : Nat) (h : j < ds.length) :
    (scheduleFrom ds c i)[j]? =
      some (c + (ds.take j).sum, HighlightEvent.highlight (i + j)) := by
  induction ds generalizing c i j with
  | nil => simp at h
  | cons d rest ih =>
    cases j with
    | zero => simp [scheduleFrom]
    | succ j' =>
      have h' : j' < rest.length := by simpa using h
      simp only [scheduleFrom, List.getElem?_cons_succ]
      rw [ih (c + d) (i + 1) j' h']
      have e1 : (c + d) + (rest.take j').sum = c + ((d :: rest).take (j' + 1)).sum := by
        rw [List.take_succ_cons, List.sum_cons]; ring
      have e2 : i + 1 + j' = i + (j' + 1) := by omega
      rw [e1, e2]

/-! ## C7: proportional line timing in playAudio -/

/-- C7: for every non-empty poem-line list (as built by the application
from a generated poem) and total audio duration D, each line is allotted
D * (its character count / total character count); the allotments sum to
D; the highlight of line i is scheduled at the cumulative allotted
duration of the preceding lines; and a final callback at time D clears the
highlight. -/
theorem playAudio_timing (poem : String) (D : ℚ)
    (h : mkPoemLines poem ≠ []) :
    (∀ (i : Nat) (line : String), (mkPoemLines poem)[i]? = some line →
       (lineAllotments (mkPoemLines poem) D)[i]? =
         some (D * ((line.length : ℚ) / (totalChars (mkPoemLines poem) : ℚ)))) ∧
    (lineAllotments (mkPoemLines poem) D).sum = D ∧
    (∀ i, i < (mkPoemLines poem).length →
       (playAudioSchedule (mkPoemLines poem) D)[i]? =
         some (((lineAllotments (mkPoemLines poem) D).take i).sum,
               HighlightEvent.highlight i)) ∧
    (playAudioSchedule (mkPoemLines poem) D)[(mkPoemLines poem).length]? =
      some (D, HighlightEvent.clear) := by
  have hC : 1 ≤ totalChars (mkPoemLines poem) :=
    totalChars_pos _ (mkPoemLines_length_pos poem) h
  have hC0 : (totalChars (mkPoemLines poem) : ℚ) ≠ 0 := by
    have hne0 : totalChars (mkPoemLines poem) ≠ 0 := by omega
    exact_mod_cast hne0
  have hlen : 0 < (mkPoemLines poem).length := List.length_pos.mpr h
  have hdlen : (lineAllotments (mkPoemLines poem) D).length = (mkPoemLines poem).length := by
    simp [lineAllotments]
  have hslen : (scheduleFrom (lineAllotments (mkPoemLines poem) D) 0 0).length =
      (mkPoemLines poem).length := by
    rw [scheduleFrom_length, hdlen]
  refine ⟨?_, ?_, ?_, ?_⟩
  · intro i line hi
    unfold lineAllotments
    rw [List.getElem?_map, hi]
    rfl
  · exact lineAllotments_sum _ D hC0
  · intro i hi
    unfold playAudioSchedule
    rw [if_pos hlen]
    rw [List.getElem?_append_left (by rw [hslen]; exact hi)]
    rw [scheduleFrom_getElem? _ 0 0 i (by rw [hdlen]; exact hi)]
    simp
  · unfold playAudioSchedule
    rw [if_pos hlen]
    rw [← hslen, List.getElem?_concat_length]

/-- Witness for C7 at the poem "ab\nc" (lines "ab" and "c") with a 6
second audio buffer. -/
theorem playAudio_timing_witness :
    (lineAllotments (mkPoemLines "ab\nc") 6).sum = 6 ∧
    (playAudioSchedule (mkPoemLines "ab\nc") 6)[1]? =
      some (((lineAllotments (mkPoemLines "ab\nc") 6).take 1).sum,
            HighlightEvent.highlight 1) ∧
    (playAudioSchedule (mkPoemLines "ab\nc") 6)[(mkPoemLines "ab\nc").length]? =
      some (6, HighlightEvent.clear) :=
  ⟨(playAudio_timing "ab\nc" 6 (by decide)).2.1,
   (playAudio_timing "ab\nc" 6 (by decide)).2.2.1 1 (by decide),
   (playAudio_timing "ab\nc" 6 (by decide)).2.2.2⟩

/-! ## C10: poem lines are non-empty, so timing is well defined -/

/-- C10: every poem-line list is built by splitting on newlines and
dropping blank lines, so each kept line has length at least 1; hence a
non-empty line list has positive total character count, and every per-line
allotment for a nonnegative duration is nonnegative. -/
theorem poemLines_wellformed (poem : String) :
    (∀ line ∈ mkPoemLines poem, 1 ≤ line.length) ∧
    (mkPoemLines poem ≠ [] → 1 ≤ totalChars (mkPoemLines poem)) ∧
    (∀ D : ℚ, 0 ≤ D → ∀ d ∈ lineAllotments (mkPoemLines poem) D, 0 ≤ d) := by
  refine ⟨mkPoemLines_length_pos poem, ?_, ?_⟩
  · intro hne
    exact totalChars_pos _ (mkPoemLines_length_pos poem) hne
  · intro D hD d hd
    unfold lineAllotments at hd
    rcases List.mem_map.mp hd with ⟨line, _, rfl⟩
    have h1 : (0 : ℚ) ≤ (line.length : ℚ) := by positivity
    have h2 : (0 : ℚ) ≤ (totalChars (mkPoemLines poem) : ℚ) := by positivity
    exact mul_nonneg hD (div_nonneg h1 h2)

/-- Witness for C10 at the poem "hi\n\n x" (kept lines "hi" and " x"). -/
theorem poemLines_wellformed_witness :
    1 ≤ String.length "hi" ∧
    1 ≤ totalChars (mkPoemLines "hi\n\n x") ∧
    (0 : ℚ) ≤ 5 * ((String.length "hi" : ℚ) / (totalChars (mkPoemLines "hi\n\n x") : ℚ)) :=
  ⟨(poemLines_wellformed "hi\n\n x").1 "hi" (by decide),
   (poemLines_wellformed "hi\n\n x").2.1 (by decide),
   (poemLines_wellformed "hi\n\n x").2.2 5 (by norm_num) _
     (by unfold lineAllotments; exact List.mem_map_of_mem _ (by decide))⟩

/-! ## C8: timer cancellation on stop and on track switch -/

theorem stopAudioStep_audioSource (s : PlayerState) :
    (stopAudioStep s).audioSource = none := by
  unfold stopAudioStep clearLineTimers
  cases hs : s.audioSource <;> cases hr : s.lineTimerRef <;> simp [hs, hr]

theorem stopAudioStep_currentLineIndex (s : PlayerState) :
    (stopAudioStep s).currentLineIndex = -1 := by
  unfold stopAudioStep
  rfl

theorem fireTimer_of_source_none (i : Nat) (s : PlayerState) (h : s.audioSource = none) :
    (fireTimer i s).audioSource = none ∧
    (fireTimer i s).currentLineIndex = s.currentLineIndex := by
  unfold fireTimer
  cases hf : s.pending.find? (fun t => t.id == i) with
  | none => exact ⟨h, rfl⟩
  | some task => simp [h]

/-- Counterexample to C8: play a three-line poem, then switch tracks (stop
followed by playing the new buffer, as `handleMusicChange` does).  Timer 1
was scheduled before the switch, survives it (only the last-stored timer
id is cleared), and when it fires after the new source has started it
changes the highlighted line index from -1 to 1. -/
theorem staleTimer_changes_highlight :
    (∃ t ∈ (playAudioStep (mkPoemLines "ab\ncd\nef") 6 initPlayer).pending, t.id = 1) ∧
    (musicSwitchPlayback (mkPoemLines "ab\ncd\nef") 6
        (playAudioStep (mkPoemLines "ab\ncd\nef") 6 initPlayer)).currentLineIndex = -1 ∧
    (∃ t ∈ (musicSwitchPlayback (mkPoemLines "ab\ncd\nef") 6
        (playAudioStep (mkPoemLines "ab\ncd\nef") 6 initPlayer)).pending, t.id = 1) ∧
    (fireTimer 1 (musicSwitchPlayback (mkPoemLines "ab\ncd\nef") 6
        (playAudioStep (mkPoemLines "ab\ncd\nef") 6 initPlayer))).currentLineIndex = 1 := by
  decide

/-- C8 as amended: after `stopAudio`, while no new playback has started,
previously scheduled callbacks may still fire but never change the
highlighted line index — the active-source guard keeps it at -1 through
any sequence of timer firings. -/
theorem stop_guards_highlight (s : PlayerState) (ids : List Nat) :
    (ids.foldl (fun st i => fireTimer i st) (stopAudioStep s)).currentLineIndex = -1 := by
  have key : ∀ (l : List Nat) (st : PlayerState), st.audioSource = none →
      st.currentLineIndex = -1 →
      (l.foldl (fun st i => fireTimer i st) st).currentLineIndex = -1 := by
    intro l
    induction l with
    | nil => intro st _ h2; simpa using h2
    | cons i rest ih =>
      intro st h1 h2
      simp only [List.foldl]
      have hf := fireTimer_of_source_none i st h1
      exact ih (fireTimer i st) hf.1 (by rw [hf.2]; exact h2)
  exact key ids (stopAudioStep s) (stopAudioStep_audioSource s) (stopAudioStep_currentLineIndex s)

/-! ## C9: failed mixing reverts to the speech-only configuration -/

/-- C9: when the poem exists, the audio context is ready, a genuine track
change to a non-"none" key is requested, and the mixing round-trip fails
(network error, non-OK response, or decode failure), then `musicChoice` is
reverted to "none", and if the captured speech-only buffers both exist the
playback and download buffers are set back to them, the mixed buffers are
cleared and the mixed-playing flag is off. -/
theorem musicChange_failure_reverts (env : MixChangeEnv) (newChoice : String) (s : AppState)
    (hp : ¬ s.generatedPoem = "") (hctx : env.audioCtxReady = true)
    (hdiff : ¬ s.musicChoice = newChoice) (hnone : ¬ newChoice = "none")
    (hfail : env.mixOutcome.isFailure = true) :
    (handleMusicChange env newChoice s).musicChoice = "none" ∧
    (∀ d r, s.speechOnlyDecodedBuffer = some d → s.speechOnlyRawMp3Buffer = some r →
       (handleMusicChange env newChoice s).currentPlaybackAudioBuffer = some d ∧
       (handleMusicChange env newChoice s).currentDownloadMp3Buffer = some r ∧
       (handleMusicChange env newChoice s).mixedDecodedBuffer = none ∧
       (handleMusicChange env newChoice s).mixedRawMp3Buffer = none ∧
       (handleMusicChange env newChoice s).isMixedAudioPlaying = false) := by
  unfold handleMusicChange
  rw [if_neg hp, if_neg (by simp [hctx]), if_neg hdiff]
  simp only [if_neg hnone]
  cases hraw : s.speechOnlyRawMp3Buffer with
  | some v =>
    cases ho : env.mixOutcome with
    | ok d r => rw [ho] at hfail; simp [MixOutcome.isFailure] at hfail
    | networkError m =>
      cases hdec : s.speechOnlyDecodedBuffer with
      | some d => simp [mixFetchStep, ho, hraw, hdec, setAudioAndSyncData]
      | none => simp [mixFetchStep, ho, hraw, hdec]
    | httpError m =>
      cases hdec : s.speechOnlyDecodedBuffer with
      | some d => simp [mixFetchStep, ho, hraw, hdec, setAudioAndSyncData]
      | none => simp [mixFetchStep, ho, hraw, hdec]
    | decodeError m =>
      cases hdec : s.speechOnlyDecodedBuffer with
      | some d => simp [mixFetchStep, ho, hraw, hdec, setAudioAndSyncData]
      | none => simp [mixFetchStep, ho, hraw, hdec]
  | none =>
    cases hg : env.genSpeech with
    | none => simp [hraw, hg]
    | some v =>
      cases ho : env.mixOutcome with
      | ok d r => rw [ho] at hfail; simp [MixOutcome.isFailure] at hfail
      | networkError m => simp [mixFetchStep, ho, hraw, hg]
      | httpError m => simp [mixFetchStep, ho, hraw, hg]
      | decodeError m => simp [mixFetchStep, ho, hraw, hg]

/-- A concrete application state with speech-only audio installed and no
music selected. -/
def sampleAppState : AppState :=
  { musicChoice := "none",
    speechOnlyDecodedBuffer := some 10,
    speechOnlyRawMp3Buffer := some 11,
    mixedDecodedBuffer := none,
    mixedRawMp3Buffer := none,
    currentPlaybackAudioBuffer := some 10,
    currentDownloadMp3Buffer := some 11,
    isMixedAudioPlaying := false,
    errorMessage := "",
    isMixing := false,
    generatedPoem := "la\nla",
    poemLines := mkPoemLines "la\nla" }

/-- The environment of a music change whose mixing request comes back
non-OK. -/
def failingMixEnv : MixChangeEnv :=
  { audioCtxReady := true, genSpeech := none, genDecode := none,
    mixOutcome := MixOutcome.httpError "mix failed" }

/-- Witness for C9: a failed switch to "ambient" from the sample state
reverts the music choice and reinstalls the speech-only buffers. -/
theorem musicChange_failure_reverts_witness :
    (handleMusicChange failingMixEnv "ambient" sampleAppState).musicChoice = "none" ∧
    (handleMusicChange failingMixEnv "ambient" sampleAppState).currentPlaybackAudioBuffer = some 10 ∧
    (handleMusicChange failingMixEnv "ambient" sampleAppState).mixedDecodedBuffer = none ∧
    (handleMusicChange failingMixEnv "ambient" sampleAppState).isMixedAudioPlaying = false :=
  ⟨(musicChange_failure_reverts failingMixEnv "ambient" sampleAppState
      (by decide) (by decide) (by decide) (by decide) (by decide)).1,
   ((musicChange_failure_reverts failingMixEnv "ambient" sampleAppState
      (by decide) (by decide) (by decide) (by decide) (by decide)).2 10 11 rfl rfl).1,
   ((musicChange_failure_reverts failingMixEnv "ambient" sampleAppState
      (by decide) (by decide) (by decide) (by decide) (by decide)).2 10 11 rfl rfl).2.2.1,
   ((musicChange_failure_reverts failingMixEnv "ambient" sampleAppState
      (by decide) (by decide) (by decide) (by decide) (by decide)).2 10 11 rfl rfl).2.2.2.2⟩

/-! ## Helper lemmas about cleanup and the handler -/

theorem safeUnlink_assigned (env : Env) (t : Trace) (p w : String) :
    (safeUnlink env t p w).assigned = t.assigned := by
  unfold safeUnlink
  repeat' split
  all_goals rfl

theorem safeUnlink_ffmpegCalls (env : Env) (t : Trace) (p w : String) :
    (safeUnlink env t p w).ffmpegCalls = t.ffmpegCalls := by
  unfold safeUnlink
  repeat' split
  all_goals rfl

theorem safeUnlink_unlinkAttempts (env : Env) (t : Trace) (p w : String) :
    (safeUnlink env t p w).unlinkAttempts = t.unlinkAttempts ++ [p] := by
  unfold safeUnlink
  repeat' split
  all_goals rfl

theorem safeUnlink_fs_subset (env : Env) (t : Trace) (p w q : String)
    (h : q ∈ (safeUnlink env t p w).fs) : q ∈ t.fs := by
  unfold safeUnlink at h
  repeat' split at h
  all_goals first
    | exact h
    | exact List.mem_of_mem_erase h

theorem musicFilesAccess_file (k p : String)
    (h : musicFilesAccess k = JsProp.file p) :
    (MUSIC_FILES.find? (fun q => q.1 == k)).map (fun q => q.2) = some p := by
  unfold musicFilesAccess at h
  cases hfind : (MUSIC_FILES.find? (fun q => q.1 == k)).map (fun q => q.2) with
  | some path =>
    rw [hfind] at h
    cases h
    rfl
  | none =>
    rw [hfind] at h
    by_cases hk : k ∈ protoKeys
    · rw [if_pos hk] at h
      cases h
    · rw [if_neg hk] at h
      cases h

theorem musicLookup_eq_some (mc : Option String) (p : String)
    (h : musicLookup mc = some p) :
    ∃ k, mc = some k ∧ ¬ k = "" ∧ musicFilesAccess k = JsProp.file p := by
  cases mc with
  | none => cases h
  | some k =>
    simp only [musicLookup] at h
    by_cases hk : k = ""
    · rw [if_pos hk] at h
      cases h
    · rw [if_neg hk] at h
      exact ⟨k, rfl, hk, by unfold musicFilesAccess; rw [h]⟩

/-! ## C1: successful mixing streams the produced file -/

/-- C1: for a POST request that parses, has a narration part and a known
music key with a readable background file, and whose ffmpeg invocation
succeeds producing the (non-empty) mix file, the handler responds 200 with
Content-Type audio/mpeg, a Content-Length equal to the produced file's
byte count, and the produced file's bytes as the (non-empty) body. -/
theorem mix_success_streams_file (req : MixRequest) (env : Env)
    (vf : UploadedFile) (mp : String) (bytes : List Nat)
    (hm : req.method = "POST") (hp : env.parseOk = true)
    (hv : req.voiceAudioFile = some vf) (hmu : musicLookup req.musicChoice = some mp)
    (hread : env.musicFileReadable = true) (hmk : env.mkdirOk = true)
    (hren : env.renameOk = true) (hf : env.ffmpegResult = FfmpegResult.success bytes)
    (hne : bytes ≠ []) :
    (handler req env).1.status = 200 ∧
    getHeader (handler req env).1 "Content-Type" = some "audio/mpeg" ∧
    getHeader (handler req env).1 "Content-Length" = some (toString bytes.length) ∧
    (handler req env).1.body = ResponseBody.stream bytes ∧
    bytes ≠ [] := by
  have hbody : (tryBody req env (initTrace req)).1 = TryExit.ret
      { status := 200,
        headers := [("Content-Type", "audio/mpeg"),
                    ("Content-Length", toString bytes.length),
                    ("Content-Disposition", "inline; filename=\"final_mix.mp3\"")],
        body := ResponseBody.stream bytes } := by
    obtain ⟨k, hk, hkne, hacc⟩ := musicLookup_eq_some req.musicChoice mp hmu
    unfold tryBody
    simp [hp, hv, hk, hkne, hacc, hread, hmk, hren, hf]
  have hresp : (handler req env).1 =
      { status := 200,
        headers := [("Content-Type", "audio/mpeg"),
                    ("Content-Length", toString bytes.length),
                    ("Content-Disposition", "inline; filename=\"final_mix.mp3\"")],
        body := ResponseBody.stream bytes } := by
    unfold handler
    rw [if_pos hm]
    simp only [hbody]
  rw [hresp]
  refine ⟨rfl, rfl, rfl, rfl, hne⟩

/-- A fully successful environment: parsing, filesystem and ffmpeg all
succeed, the stream ends normally, and deletions succeed. -/
def okEnv : Env :=
  { parseOk := true, musicFileReadable := true, mkdirOk := true,
    suffixV := "v1", suffixM := "m1", renameOk := true,
    ffmpegResult := FfmpegResult.success [7, 7], streamEnds := true,
    unlinkFail := fun _ => none }

/-- A valid mixing request: POST, a narration upload, and the "ambient"
music key. -/
def okReq : MixRequest :=
  { method := "POST",
    voiceAudioFile := some { filepath := "upload/tmp1", size := 3 },
    musicChoice := some "ambient" }

/-- Witness for C1 on the valid request under the all-success
environment. -/
theorem mix_success_streams_file_witness :
    (handler okReq okEnv).1.status = 200 ∧
    getHeader (handler okReq okEnv).1 "Content-Type" = some "audio/mpeg" ∧
    getHeader (handler okReq okEnv).1 "Content-Length" =
      some (toString ([7, 7] : List Nat).length) ∧
    (handler okReq okEnv).1.body = ResponseBody.stream [7, 7] := by
  have h := mix_success_streams_file okReq okEnv
    { filepath := "upload/tmp1", size := 3 } "public/audio/ambient_background.mp3" [7, 7]
    rfl rfl rfl (by decide) rfl rfl rfl rfl (by decide)
  exact ⟨h.1, h.2.1, h.2.2.1, h.2.2.2.1⟩

theorem handler_ffmpegCalls (req : MixRequest) (env : Env) :
    (handler req env).2.ffmpegCalls =
      (if req.method = "POST" then (tryBody req env (initTrace req)).2.1.ffmpegCalls
       else []) := by
  unfold handler
  by_cases hm : req.method = "POST"
  · simp [hm, safeUnlink_ffmpegCalls]
  · simp [hm, initTrace]

theorem handler_assigned (req : MixRequest) (env : Env) :
    (handler req env).2.assigned =
      (if req.method = "POST" then (tryBody req env (initTrace req)).2.1.assigned
       else []) := by
  unfold handler
  by_cases hm : req.method = "POST"
  · simp [hm, safeUnlink_assigned]
  · simp [hm, initTrace]

theorem handler_unlinkAttempts_post (req : MixRequest) (env : Env)
    (hm : req.method = "POST") :
    (handler req env).2.unlinkAttempts =
      (tryBody req env (initTrace req)).2.1.unlinkAttempts ++
        [(tryBody req env (initTrace req)).2.2.1] ++
        [(tryBody req env (initTrace req)).2.2.2] := by
  unfold handler
  simp [hm, safeUnlink_unlinkAttempts]

theorem tryBody_ffmpeg_inv (req : MixRequest) (env : Env) (cfg : FfmpegConfig)
    (h : cfg ∈ (tryBody req env (initTrace req)).2.1.ffmpegCalls) :
    cfg.complexFilter = ffmpegComplexFilter ∧
    cfg.outputOptions = ffmpegOutputOptions ∧
    musicLookup req.musicChoice = some cfg.input2 ∧
    (tryBody req env (initTrace req)).2.1.assigned = [cfg.input1, cfg.output] ∧
    (tryBody req env (initTrace req)).2.1.ffmpegCalls = [cfg] ∧
    (∀ m, env.ffmpegResult = FfmpegResult.failure m →
       (tryBody req env (initTrace req)).1 = TryExit.err blendFailMsg) := by
  cases hp : env.parseOk with
  | false => unfold tryBody at h; simp [hp, initTrace] at h
  | true =>
    cases hv : req.voiceAudioFile with
    | none => unfold tryBody at h; simp [hp, hv, initTrace] at h
    | some vf =>
      cases hmc : req.musicChoice with
      | none => unfold tryBody at h; simp [hp, hv, hmc, initTrace] at h
      | some k =>
        by_cases hke : k = ""
        · unfold tryBody at h; simp [hp, hv, hmc, hke, initTrace] at h
        · cases hacc : musicFilesAccess k with
          | undef => unfold tryBody at h; simp [hp, hv, hmc, hke, hacc, initTrace] at h
          | inherited => unfold tryBody at h; simp [hp, hv, hmc, hke, hacc, initTrace] at h
          | file mpath =>
            have hmu : musicLookup (some k) = some mpath := by
              simp only [musicLookup]
              rw [if_neg hke]
              exact musicFilesAccess_file k mpath hacc
            cases hread : env.musicFileReadable with
            | false =>
              unfold tryBody at h
              simp [hp, hv, hmc, hke, hacc, hread, initTrace] at h
            | true =>
              cases hmk : env.mkdirOk with
              | false =>
                unfold tryBody at h
                simp [hp, hv, hmc, hke, hacc, hread, hmk, initTrace] at h
              | true =>
                cases hren : env.renameOk with
                | false =>
                  unfold tryBody at h
                  simp [hp, hv, hmc, hke, hacc, hread, hmk, hren, initTrace] at h
                | true =>
                  cases hf : env.ffmpegResult with
                  | failure m =>
                    unfold tryBody at h
                    simp [hp, hv, hmc, hke, hacc, hread, hmk, hren, hf, initTrace] at h
                    subst h
                    refine ⟨rfl, rfl, ?_, ?_, ?_, ?_⟩
                    · exact hmu
                    · unfold tryBody
                      simp [hp, hv, hmc, hke, hacc, hread, hmk, hren, hf, initTrace]
                    · unfold tryBody
                      simp [hp, hv, hmc, hke, hacc, hread, hmk, hren, hf, initTrace]
                    · intro m' _
                      unfold tryBody
                      simp [hp, hv, hmc, hke, hacc, hread, hmk, hren, hf, initTrace]
                  | success bytes =>
                    unfold tryBody at h
                    by_cases hs : env.streamEnds
                    · simp [hp, hv, hmc, hke, hacc, hread, hmk, hren, hf, hs, initTrace,
                            safeUnlink_ffmpegCalls] at h
                      subst h
                      refine ⟨rfl, rfl, ?_, ?_, ?_, ?_⟩
                      · exact hmu
                      · unfold tryBody
                        simp [hp, hv, hmc, hke, hacc, hread, hmk, hren, hf, hs, initTrace,
                              safeUnlink_assigned]
                      · unfold tryBody
                        simp [hp, hv, hmc, hke, hacc, hread, hmk, hren, hf, hs, initTrace,
                              safeUnlink_ffmpegCalls]
                      · intro m' hm'
                        simp [hf] at hm'
                    · simp [hp, hv, hmc, hke, hacc, hread, hmk, hren, hf, hs, initTrace] at h
                      subst h
                      refine ⟨rfl, rfl, ?_, ?_, ?_, ?_⟩
                      · exact hmu
                      · unfold tryBody
                        simp [hp, hv, hmc, hke, hacc, hread, hmk, hren, hf, hs, initTrace]
                      · unfold tryBody
                        simp [hp, hv, hmc, hke, hacc, hread, hmk, hren, hf, hs, initTrace]
                      · intro m' hm'
                        simp [hf] at hm'

/-! ## C2: the fixed mixing policy and single-attempt processing -/

/-- C2: every ffmpeg invocation the handler performs uses exactly the
fixed policy — the filter graph that scales the second (background) input
to 0.25 and amixes with duration pinned to the first (narration) input,
and the libmp3lame quality-2 output options — with the narration scratch
copy as first input, the configured background track as second input and
the mix scratch path as the output; there is exactly one invocation per
request (no retry), and on processor failure the response is a 500 JSON
error (no fallback or partial mix). -/
theorem mix_fixed_policy (req : MixRequest) (env : Env) (cfg : FfmpegConfig)
    (h : cfg ∈ (handler req env).2.ffmpegCalls) :
    cfg.complexFilter = ffmpegComplexFilter ∧
    cfg.outputOptions = ffmpegOutputOptions ∧
    musicLookup req.musicChoice = some cfg.input2 ∧
    (handler req env).2.assigned = [cfg.input1, cfg.output] ∧
    (handler req env).2.ffmpegCalls = [cfg] ∧
    (∀ m, env.ffmpegResult = FfmpegResult.failure m →
       (handler req env).1.status = 500 ∧
       (handler req env).1.body = ResponseBody.json blendFailMsg) := by
  have hm : req.method = "POST" := by
    by_contra hm
    rw [handler_ffmpegCalls, if_neg hm] at h
    simp at h
  have h' : cfg ∈ (tryBody req env (initTrace req)).2.1.ffmpegCalls := by
    rw [handler_ffmpegCalls, if_pos hm] at h
    exact h
  have inv := tryBody_ffmpeg_inv req env cfg h'
  refine ⟨inv.1, inv.2.1, inv.2.2.1, ?_, ?_, ?_⟩
  · rw [handler_assigned, if_pos hm]
    exact inv.2.2.2.1
  · rw [handler_ffmpegCalls, if_pos hm]
    exact inv.2.2.2.2.1
  · intro m hf
    have herr := inv.2.2.2.2.2 m hf
    unfold handler
    simp [hm, herr]

/-- Witness for C2: the one ffmpeg call made for the valid request under
the all-success environment uses the fixed filter graph and options. -/
theorem mix_fixed_policy_witness :
    FfmpegConfig.complexFilter
        { input1 := "tmp/voice-v1.mp3",
          input2 := "public/audio/ambient_background.mp3",
          complexFilter := ffmpegComplexFilter,
          outputOptions := ffmpegOutputOptions,
          output := "tmp/final_mix-m1.mp3" } = ffmpegComplexFilter ∧
    (handler okReq okEnv).2.ffmpegCalls =
      [{ input1 := "tmp/voice-v1.mp3",
         input2 := "public/audio/ambient_background.mp3",
         complexFilter := ffmpegComplexFilter,
         outputOptions := ffmpegOutputOptions,
         output := "tmp/final_mix-m1.mp3" }] := by
  have h := mix_fixed_policy okReq okEnv
    { input1 := "tmp/voice-v1.mp3",
      input2 := "public/audio/ambient_background.mp3",
      complexFilter := ffmpegComplexFilter,
      outputOptions := ffmpegOutputOptions,
      output := "tmp/final_mix-m1.mp3" } (by decide)
  exact ⟨h.1, h.2.2.2.2.1⟩

/-! ## C4: deletion attempted for every assigned scratch path -/

theorem tryBody_assigned_character (req : MixRequest) (env : Env) :
    (tryBody req env (initTrace req)).2.1.assigned = [] ∨
    (tryBody req env (initTrace req)).2.1.assigned =
      [(tryBody req env (initTrace req)).2.2.1,
       (tryBody req env (initTrace req)).2.2.2] := by
  cases hp : env.parseOk with
  | false => left; unfold tryBody; simp [hp, initTrace]
  | true =>
    cases hv : req.voiceAudioFile with
    | none => left; unfold tryBody; simp [hp, hv, initTrace]
    | some vf =>
      cases hmc : req.musicChoice with
      | none => left; unfold tryBody; simp [hp, hv, hmc, initTrace]
      | some k =>
        by_cases hke : k = ""
        · left; unfold tryBody; simp [hp, hv, hmc, hke, initTrace]
        · cases hacc : musicFilesAccess k with
          | undef => left; unfold tryBody; simp [hp, hv, hmc, hke, hacc, initTrace]
          | inherited => left; unfold tryBody; simp [hp, hv, hmc, hke, hacc, initTrace]
          | file mpath =>
            cases hread : env.musicFileReadable with
            | false =>
              left; unfold tryBody
              simp [hp, hv, hmc, hke, hacc, hread, initTrace]
            | true =>
              cases hmk : env.mkdirOk with
              | false =>
                left; unfold tryBody
                simp [hp, hv, hmc, hke, hacc, hread, hmk, initTrace]
              | true =>
                cases hren : env.renameOk with
                | false =>
                  right; unfold tryBody
                  simp [hp, hv, hmc, hke, hacc, hread, hmk, hren, initTrace]
                | true =>
                  cases hf : env.ffmpegResult with
                  | failure m =>
                    right; unfold tryBody
                    simp [hp, hv, hmc, hke, hacc, hread, hmk, hren, hf, initTrace]
                  | success bytes =>
                    right; unfold tryBody
                    by_cases hs : env.streamEnds
                    · simp [hp, hv, hmc, hke, hacc, hread, hmk, hren, hf, hs, initTrace,
                            safeUnlink_assigned]
                    · simp [hp, hv, hmc, hke, hacc, hread, hmk, hren, hf, hs, initTrace]

/-- C4: on every exit path of the handler, each scratch path assigned
during the request receives at least one deletion attempt before the
handler completes. -/
theorem cleanup_attempted_every_path (req : MixRequest) (env : Env) (p : String)
    (h : p ∈ (handler req env).2.assigned) :
    p ∈ (handler req env).2.unlinkAttempts := by
  rw [handler_assigned] at h
  by_cases hm : req.method = "POST"
  · rw [if_pos hm] at h
    rw [handler_unlinkAttempts_post req env hm]
    rcases tryBody_assigned_character req env with hc | hc
    · rw [hc] at h
      simp at h
    · rw [hc] at h
      simp only [List.mem_cons, List.mem_singleton] at h
      rcases h with rfl | h
      · simp
      · rcases h with rfl | h
        · simp
        · simp at h
  · rw [if_neg hm] at h
    simp at h

/-- Witness for C4: under the all-success environment, the voice scratch
path is assigned and is indeed attempted for deletion. -/
theorem cleanup_attempted_every_path_witness :
    "tmp/voice-v1.mp3" ∈ (handler okReq okEnv).2.unlinkAttempts :=
  cleanup_attempted_every_path okReq okEnv "tmp/voice-v1.mp3" (by decide)

/-! ## C3: validation outcomes before any side effect -/

/-- A POST request with a narration part whose musicChoice names an
`Object.prototype`-inherited property. -/
def protoKeyReq : MixRequest :=
  { method := "POST",
    voiceAudioFile := some { filepath := "upload/tmp2", size := 3 },
    musicChoice := some "constructor" }

/-- Counterexample to C3: the key "constructor" is not one of the known
music keys, yet `!MUSIC_FILES[musicChoice]` is false for it (the property
is inherited from `Object.prototype` and truthy), so validation passes and
the request is answered 500 at the background-file access check — not the
claimed 400.  No scratch path is assigned and ffmpeg is never invoked. -/
theorem protoKey_not_rejected_400 :
    (handler protoKeyReq okEnv).1.status = 500 ∧
    (handler protoKeyReq okEnv).1.status ≠ 400 ∧
    (handler protoKeyReq okEnv).1.body = ResponseBody.json melodyLostMsg ∧
    (handler protoKeyReq okEnv).2.assigned = [] ∧
    (handler protoKeyReq okEnv).2.ffmpegCalls = [] := by
  decide

/-- C3 as amended: a parsed POST request whose narration part is missing,
or whose music choice is missing, empty, or undefined on the music table
(neither an own key nor inherited from `Object.prototype`), is answered
400 with a JSON error body; a music choice naming a prototype-inherited
property passes the truthiness validation and is instead answered 500 at
the background-file access check.  In both cases no scratch path is
assigned, ffmpeg is never invoked, and the handler's file set only
shrinks, so no scratch file remains afterwards. -/
theorem validation_rejects_before_side_effects (req : MixRequest) (env : Env)
    (hm : req.method = "POST") (hp : env.parseOk = true) :
    ((req.voiceAudioFile = none ∨ req.musicChoice = none ∨ req.musicChoice = some "" ∨
       (∃ k, req.musicChoice = some k ∧ musicFilesAccess k = JsProp.undef)) →
       (handler req env).1.status = 400 ∧
       (∃ m, (handler req env).1.body = ResponseBody.json m) ∧
       (handler req env).2.assigned = [] ∧
       (handler req env).2.ffmpegCalls = [] ∧
       (∀ q, q ∈ (handler req env).2.fs → q ∈ initFs req)) ∧
    (∀ vf k, req.voiceAudioFile = some vf → req.musicChoice = some k →
       musicFilesAccess k = JsProp.inherited →
       (handler req env).1.status = 500 ∧
       (∃ m, (handler req env).1.body = ResponseBody.json m) ∧
       (handler req env).2.assigned = [] ∧
       (handler req env).2.ffmpegCalls = [] ∧
       (∀ q, q ∈ (handler req env).2.fs → q ∈ initFs req)) := by
  have main : ∀ (R : HttpResponse),
      tryBody req env (initTrace req) = (TryExit.ret R, initTrace req, "", "") →
      (handler req env).1 = R ∧
      (handler req env).2.assigned = [] ∧
      (handler req env).2.ffmpegCalls = [] ∧
      (∀ q, q ∈ (handler req env).2.fs → q ∈ initFs req) := by
    intro R hbody
    refine ⟨?_, ?_, ?_, ?_⟩
    · unfold handler
      simp [hm, hbody]
    · rw [handler_assigned, if_pos hm, hbody]
      simp [initTrace]
    · rw [handler_ffmpegCalls, if_pos hm, hbody]
      simp [initTrace]
    · intro q hq
      unfold handler at hq
      simp only [hm, if_true, hbody] at hq
      have h1 := safeUnlink_fs_subset _ _ _ _ _ hq
      have h2 := safeUnlink_fs_subset _ _ _ _ _ h1
      simpa [initTrace] using h2
  constructor
  · intro hbad
    obtain ⟨M, hbody⟩ : ∃ M, tryBody req env (initTrace req) =
        (TryExit.ret { status := 400, headers := [], body := ResponseBody.json M },
         initTrace req, "", "") := by
      rcases hbad with hv | hmc | hmc | ⟨k, hmc, hacc⟩
      · exact ⟨voiceRequiredMsg, by unfold tryBody; simp [hp, hv]⟩
      · cases hv2 : req.voiceAudioFile with
        | none => exact ⟨voiceRequiredMsg, by unfold tryBody; simp [hp, hv2]⟩
        | some vf => exact ⟨melodyChoiceMsg, by unfold tryBody; simp [hp, hv2, hmc]⟩
      · cases hv2 : req.voiceAudioFile with
        | none => exact ⟨voiceRequiredMsg, by unfold tryBody; simp [hp, hv2]⟩
        | some vf => exact ⟨melodyChoiceMsg, by unfold tryBody; simp [hp, hv2, hmc]⟩
      · cases hv2 : req.voiceAudioFile with
        | none => exact ⟨voiceRequiredMsg, by unfold tryBody; simp [hp, hv2]⟩
        | some vf =>
          by_cases hke : k = ""
          · exact ⟨melodyChoiceMsg, by unfold tryBody; simp [hp, hv2, hmc, hke]⟩
          · exact ⟨melodyChoiceMsg, by unfold tryBody; simp [hp, hv2, hmc, hke, hacc]⟩
    have hmain := main _ hbody
    exact ⟨by rw [hmain.1], ⟨M, by rw [hmain.1]⟩, hmain.2.1, hmain.2.2.1, hmain.2.2.2⟩
  · intro vf k hv hmc hacc
    by_cases hke : k = ""
    · subst hke
      exact absurd hacc (by decide)
    · have hbody : tryBody req env (initTrace req) =
          (TryExit.ret { status := 500, headers := [], body := ResponseBody.json melodyLostMsg },
           initTrace req, "", "") := by
        unfold tryBody
        simp [hp, hv, hmc, hke, hacc]
      have hmain := main _ hbody
      exact ⟨by rw [hmain.1], ⟨melodyLostMsg, by rw [hmain.1]⟩,
             hmain.2.1, hmain.2.2.1, hmain.2.2.2⟩

/-- A POST request with a narration part but an unknown music key. -/
def badKeyReq : MixRequest :=
  { method := "POST",
    voiceAudioFile := some { filepath := "upload/tmp2", size := 3 },
    musicChoice := some "jazz" }

/-- A POST request with a narration part and the prototype-inherited key
"toString". -/
def toStringKeyReq : MixRequest :=
  { method := "POST",
    voiceAudioFile := some { filepath := "upload/tmp2", size := 3 },
    musicChoice := some "toString" }

/-- Witness for the amended C3: the undefined key "jazz" yields 400 with
no scratch paths assigned and no ffmpeg call, and the prototype-inherited
key "toString" yields 500, also with no side effects. -/
theorem validation_rejects_before_side_effects_witness :
    (handler badKeyReq okEnv).1.status = 400 ∧
    (handler badKeyReq okEnv).2.assigned = [] ∧
    (handler badKeyReq okEnv).2.ffmpegCalls = [] ∧
    (handler toStringKeyReq okEnv).1.status = 500 ∧
    (handler toStringKeyReq okEnv).2.assigned = [] ∧
    (handler toStringKeyReq okEnv).2.ffmpegCalls = [] := by
  have h1 := (validation_rejects_before_side_effects badKeyReq okEnv rfl rfl).1
    (Or.inr (Or.inr (Or.inr ⟨"jazz", rfl, by decide⟩)))
  have h2 := (validation_rejects_before_side_effects toStringKeyReq okEnv rfl rfl).2
    { filepath := "upload/tmp2", size := 3 } "toString" rfl rfl (by decide)
  exact ⟨h1.1, h1.2.2.1, h1.2.2.2.1, h2.1, h2.2.2.1, h2.2.2.2.1⟩

/-! ## C5: deletion is idempotent and never escalates -/

theorem safeUnlink_absent (env : Env) (t : Trace) (p w : String) (h : p ∉ t.fs) :
    safeUnlink env t p w = { t with unlinkAttempts := t.unlinkAttempts ++ [p] } := by
  unfold safeUnlink
  rw [if_neg h]

theorem tryBody_fst_indep (req : MixRequest) (env : Env) (f : String → Option String)
    (t : Trace) :
    (tryBody req { env with unlinkFail := f } t).1 = (tryBody req env t).1 := by
  obtain ⟨po, mr, mk, sv, sm, rn, fr, se, uf⟩ := env
  obtain ⟨mth, va, mc⟩ := req
  unfold tryBody
  repeat' split
  all_goals simp_all

theorem handler_fst_indep (req : MixRequest) (env : Env) (f : String → Option String) :
    (handler req { env with unlinkFail := f }).1 = (handler req env).1 := by
  unfold handler
  by_cases hm : req.method = "POST"
  · simp only [hm, if_true]
    have hb := tryBody_fst_indep req env f (initTrace req)
    simp only [hb]
  · simp only [hm, if_false]

/-- C5: deleting an absent scratch path only records the attempt — no
warning, no state change, no error; after a successful deletion a second
deletion of the same path is equally silent; a deletion failure with any
code other than ENOENT is only logged as a warning; and the handler's
response never depends on deletion outcomes. -/
theorem cleanup_idempotent_and_silent (env : Env) (t : Trace) (p w : String) :
    (p ∉ t.fs → safeUnlink env t p w =
       { t with unlinkAttempts := t.unlinkAttempts ++ [p] }) ∧
    (t.fs.Nodup → p ∈ t.fs → env.unlinkFail p = none →
       p ∉ (safeUnlink env t p w).fs ∧
       safeUnlink env (safeUnlink env t p w) p w =
         { safeUnlink env t p w with
             unlinkAttempts := (safeUnlink env t p w).unlinkAttempts ++ [p] }) ∧
    (∀ c, p ∈ t.fs → env.unlinkFail p = some c → c ≠ "ENOENT" →
       safeUnlink env t p w =
         { t with unlinkAttempts := t.unlinkAttempts ++ [p],
                  warns := t.warns ++ [w ++ c] }) ∧
    (∀ req f, (handler req { env with unlinkFail := f }).1 = (handler req env).1) := by
  refine ⟨safeUnlink_absent env t p w, ?_, ?_, ?_⟩
  · intro hd hp hu
    have hfs : (safeUnlink env t p w).fs = t.fs.erase p := by
      unfold safeUnlink
      rw [if_pos hp, hu]
    have hnm : p ∉ (safeUnlink env t p w).fs := by
      rw [hfs]
      exact hd.not_mem_erase
    exact ⟨hnm, safeUnlink_absent env _ p w hnm⟩
  · intro c hp hu hc
    unfold safeUnlink
    rw [if_pos hp, hu]
    simp [hc]
  · intro req f
    exact handler_fst_indep req env f

/-- A one-file trace used to exercise the cleanup properties. -/
def oneFileTrace : Trace :=
  { fs := ["tmp/a.mp3"], assigned := [], ffmpegCalls := [],
    unlinkAttempts := [], warns := [] }

/-- Witness for C5: deleting an absent path only records the attempt;
after deleting the one existing file it is gone; and injecting EPERM
deletion failures does not change the handler's response. -/
theorem cleanup_idempotent_and_silent_witness :
    safeUnlink okEnv oneFileTrace "tmp/b.mp3" "w: " =
      { fs := ["tmp/a.mp3"], assigned := [], ffmpegCalls := [],
        unlinkAttempts := ["tmp/b.mp3"], warns := [] } ∧
    "tmp/a.mp3" ∉ (safeUnlink okEnv oneFileTrace "tmp/a.mp3" "w: ").fs ∧
    (handler okReq { okEnv with unlinkFail := fun _ => some "EPERM" }).1 =
      (handler okReq okEnv).1 := by
  refine ⟨?_, ?_, ?_⟩
  · exact (cleanup_idempotent_and_silent okEnv oneFileTrace "tmp/b.mp3" "w: ").1 (by decide)
  · exact ((cleanup_idempotent_and_silent okEnv oneFileTrace "tmp/a.mp3" "w: ").2.1
      (by decide) (by decide) rfl).1
  · exact (cleanup_idempotent_and_silent okEnv oneFileTrace "x" "w: ").2.2.2
      okReq (fun _ => some "EPERM")

/-! ## C6: only presence of the narration part is validated -/

/-- A POST request whose narration part is present but empty (zero
bytes), with a valid music key. -/
def emptyVoiceReq : MixRequest :=
  { method := "POST",
    voiceAudioFile := some { filepath := "upload/tmp3", size := 0 },
    musicChoice := some "ambient" }

/-- The all-success environment except that ffmpeg fails (as it would on
an empty input file). -/
def failFfmpegEnv : Env :=
  { okEnv with ffmpegResult := FfmpegResult.failure "empty input" }

/-- Counterexample to C6: a present but zero-byte narration part is NOT
rejected with 400 — validation passes, ffmpeg is invoked, and the failure
surfaces as a 500. -/
theorem emptyVoice_not_rejected :
    (handler emptyVoiceReq failFfmpegEnv).1.status = 500 ∧
    (handler emptyVoiceReq failFfmpegEnv).1.status ≠ 400 ∧
    (handler emptyVoiceReq failFfmpegEnv).2.ffmpegCalls.length = 1 := by
  decide

/-- C6 as amended: the handler rejects with 400 exactly when the
narration part is absent (given a valid music choice); presence is the
only check on the narration part, so a present narration part — even one
of zero bytes — never produces a 400. -/
theorem narration_presence_only_check (req : MixRequest) (env : Env)
    (hm : req.method = "POST") (hp : env.parseOk = true) :
    (req.voiceAudioFile = none → (handler req env).1.status = 400) ∧
    (∀ vf, req.voiceAudioFile = some vf → musicLookup req.musicChoice ≠ none →
       (handler req env).1.status ≠ 400) := by
  constructor
  · intro hv
    have hbody : (tryBody req env (initTrace req)).1 = TryExit.ret
        { status := 400, headers := [], body := ResponseBody.json voiceRequiredMsg } := by
      unfold tryBody
      simp [hp, hv]
    unfold handler
    simp [hm, hbody]
  · intro vf hv hmu
    cases hmuv : musicLookup req.musicChoice with
    | none => exact absurd hmuv hmu
    | some mpath =>
      obtain ⟨k, hk, hkne, hacc⟩ := musicLookup_eq_some req.musicChoice mpath hmuv
      cases hread : env.musicFileReadable with
      | false =>
        have hbody : (tryBody req env (initTrace req)).1 = TryExit.ret
            { status := 500, headers := [], body := ResponseBody.json melodyLostMsg } := by
          unfold tryBody
          simp [hp, hv, hk, hkne, hacc, hread]
        unfold handler
        simp [hm, hbody]
      | true =>
        cases hmk : env.mkdirOk with
        | false =>
          have hbody : (tryBody req env (initTrace req)).1 = TryExit.err "mkdir failed" := by
            unfold tryBody
            simp [hp, hv, hk, hkne, hacc, hread, hmk]
          unfold handler
          simp [hm, hbody]
        | true =>
          cases hren : env.renameOk with
          | false =>
            have hbody : (tryBody req env (initTrace req)).1 = TryExit.err "rename failed" := by
              unfold tryBody
              simp [hp, hv, hk, hkne, hacc, hread, hmk, hren]
            unfold handler
            simp [hm, hbody]
          | true =>
            cases hf : env.ffmpegResult with
            | failure m =>
              have hbody : (tryBody req env (initTrace req)).1 = TryExit.err blendFailMsg := by
                unfold tryBody
                simp [hp, hv, hk, hkne, hacc, hread, hmk, hren, hf]
              unfold handler
              simp [hm, hbody]
            | success bytes =>
              have hbody : (tryBody req env (initTrace req)).1 = TryExit.ret
                  { status := 200,
                    headers :=
                      [("Content-Type", "audio/mpeg"),
                       ("Content-Length", toString bytes.length),
                       ("Content-Disposition", "inline; filename=\"final_mix.mp3\"")],
                    body := ResponseBody.stream bytes } := by
                unfold tryBody
                simp [hp, hv, hk, hkne, hacc, hread, hmk, hren, hf]
              unfold handler
              simp [hm, hbody]

/-- A POST request with no narration part and a valid music key. -/
def noVoiceReq : MixRequest :=
  { method := "POST", voiceAudioFile := none, musicChoice := some "ambient" }

/-- Witness for the amended C6: a missing narration part yields 400; a
present zero-byte narration part does not. -/
theorem narration_presence_only_check_witness :
    (handler noVoiceReq okEnv).1.status = 400 ∧
    (handler emptyVoiceReq okEnv).1.status ≠ 400 :=
  ⟨(narration_presence_only_check noVoiceReq okEnv rfl rfl).1 rfl,
   (narration_presence_only_check emptyVoiceReq okEnv rfl rfl).2
     { filepath := "upload/tmp3", size := 0 } rfl (by decide)⟩
